/-
Verification of the filtered ad query + cache layer of the 1way-market v3
classifieds service.

The Go source is shallowly embedded:
  * `internal/domain/ad.go`        → the data model structures below;
  * `internal/repository/ad_repository.go` `FindWithFilter`
                                   → `FindWithFilter` below, with the SQL
                                     collaborator (PostgreSQL) modelled as a
                                     pure list pipeline: WHERE clauses become
                                     list filters with SQL three-valued logic
                                     (a NULL comparison fails the predicate),
                                     ORDER BY becomes a deterministic sort by
                                     the order key, LIMIT becomes `take`;
  * `internal/usecase/ad_usecase.go` → `buildCacheKey`, `GetAds`, `CreateAd`,
                                     `UpdateAd`, `DeleteAd` below, with the
                                     Redis collaborator modelled as an
                                     association list keyed by exact strings
                                     (Redis DEL deletes exactly the literal
                                     keys it is given; it performs no pattern
                                     expansion).

Monetary amounts (Go float64) are modelled as integers: every claim below
depends only on the ordering of amounts, which integers preserve.  Timestamps
are modelled as integers (creation order).  Negative page sizes, on which the
Go slice expression `ads[:pageSize]` panics, are outside the modelled domain;
theorems about page handling assume a non-negative requested size.
-/
import Mathlib

namespace OneWay

/-- `domain.MultiLangText`: text in a specific language (language is a small
integer code, English is 2). -/
structure MultiLangText where
  Lang : Int
  Text : String
deriving DecidableEq, Repr

/-- `domain.Price`: a monetary value with an ISO 4217 numeric currency code
kept as a string.  The float64 amount is modelled as an integer. -/
structure Price where
  Value : Int
  Currency : String
deriving DecidableEq, Repr

/-- `domain.Ad`: the advertisement entity.  `Attributes` (a JSONB object in
Go) is modelled as an association list of text-valued attributes, matching
the `attributes->>'name'` text extraction the query builder performs.
`SearchVector` (a PostgreSQL tsvector) is modelled as the ad's lexeme list;
its JSON tag is `-`, so it is never serialized. -/
structure Ad where
  ID : Nat
  Title : List MultiLangText
  Description : List MultiLangText
  Attributes : List (String × String)
  CategoryIDs : List Int
  Status : Int
  Price : Option OneWay.Price
  SearchVector : List String
  CreatedAt : Int
  UpdatedAt : Int
deriving DecidableEq, Repr

/-- `domain.PropertyFilter` (property.go): a filter by property value.
`buildCacheKey` in ad_usecase.go iterates `filter.PropertyFilters` of this
type (the `FilterRequest` declared in domain/ad.go carries the map-shaped
`Properties` field instead; the repository snapshot contains both references,
so the embedded `FilterRequest` below carries both fields, each consumed by
the function that names it in the source). -/
structure PropertyFilter where
  PropertyID : Nat
  Values : List String
  ValueIDs : List Nat
deriving DecidableEq, Repr

/-- `domain.FilterRequest`: the query descriptor bound from the request. -/
structure FilterRequest where
  CategoryIDs : List Int
  Properties : List (String × List String)
  TextSearch : String
  SortBy : String
  PageToken : String
  PageSize : Int
  Lang : String
  MinPrice : Option Int
  MaxPrice : Option Int
  Currency : String
  Status : Option Int
  PropertyFilters : List PropertyFilter
deriving DecidableEq, Repr

/-- `domain.PaginatedResponse`: a page of ads, the next-page token (empty on
the final page) and the total matching count. -/
structure PaginatedResponse where
  Items : List Ad
  NextPage : String
  TotalCount : Int
deriving DecidableEq, Repr

/-- Failures of `FindWithFilter`: the page-token lookup
`r.db.First(&lastAd, "id = ?", filter.PageToken)` fails either because the
token is not numeric (PostgreSQL cast error) or because no row has that id
(record not found); both propagate to the caller. -/
inductive RepoError where
  | badToken
  | tokenNotFound
deriving DecidableEq, Repr

abbrev Store := List Ad

/-- Modelled from the spec: the store's full-text search collaborator
(`search_vector @@ plainto_tsquery(?)`), "tokenized, stemmed match —
delegate to the store's text-search capability".  A query matches when every
space-separated token occurs among the ad's lexemes. -/
def textMatch (q : String) (a : Ad) : Bool :=
  ((q.splitOn " ").filter (fun t => t ≠ "")).all (fun t => a.SearchVector.contains t)

/-- `attributes->>'name'`: text extraction of an attribute; `none` is SQL
NULL (attribute absent). -/
def attrText (a : Ad) (name : String) : Option String :=
  (a.Attributes.find? (fun p => p.1 = name)).map (fun p => p.2)

/-- The conjunction of the WHERE clauses `FindWithFilter` appends, in source
order: category overlap (`category_ids && ?`), text search, status equality,
per-attribute membership (`attributes->>'p' IN (?)`, skipped for an empty
value list), and the price block (currency equality, lower bound, upper
bound — a NULL price fails each of these comparisons). -/
def adMatches (f : FilterRequest) (a : Ad) : Bool :=
  (f.CategoryIDs = [] || a.CategoryIDs.any (fun c => f.CategoryIDs.contains c))
  && (f.TextSearch = "" || textMatch f.TextSearch a)
  && (match f.Status with
      | none => true
      | some s => a.Status = s)
  && f.Properties.all (fun pv =>
      pv.2 = [] ||
      (match attrText a pv.1 with
       | some v => pv.2.contains v
       | none => false))
  && (if f.MinPrice.isSome || f.MaxPrice.isSome || f.Currency ≠ "" then
        (f.Currency = "" ||
          (match a.Price with
           | some p => p.Currency = f.Currency
           | none => false))
        && (match f.MinPrice with
            | none => true
            | some m =>
              match a.Price with
              | some p => m ≤ p.Value
              | none => false)
        && (match f.MaxPrice with
            | none => true
            | some m =>
              match a.Price with
              | some p => p.Value ≤ m
              | none => false)
      else true)

/-- `ORDER BY (price->>'value')::float ASC NULLS LAST` as a boolean total
preorder: priced rows by ascending amount, every priced row before every
NULL-price row. -/
def priceAscLe (a b : Ad) : Bool :=
  match a.Price, b.Price with
  | some p, some q => p.Value ≤ q.Value
  | some _, none => true
  | none, some _ => false
  | none, none => true

/-- `ORDER BY (price->>'value')::float DESC NULLS LAST`. -/
def priceDescLe (a b : Ad) : Bool :=
  match a.Price, b.Price with
  | some p, some q => q.Value ≤ p.Value
  | some _, none => true
  | none, some _ => false
  | none, none => true

/-- `ORDER BY created_at DESC`. -/
def dateDescLe (a b : Ad) : Bool :=
  b.CreatedAt ≤ a.CreatedAt

/-- The price-ascending order as a decidable relation. -/
def adRelAsc : Ad → Ad → Prop := fun a b => priceAscLe a b = true

/-- The price-descending order as a decidable relation. -/
def adRelDesc : Ad → Ad → Prop := fun a b => priceDescLe a b = true

/-- The date-descending order as a decidable relation. -/
def adRelDate : Ad → Ad → Prop := fun a b => dateDescLe a b = true

instance : DecidableRel adRelAsc := fun a b => (priceAscLe a b).decEq true

instance : DecidableRel adRelDesc := fun a b => (priceDescLe a b).decEq true

instance : DecidableRel adRelDate := fun a b => (dateDescLe a b).decEq true

/-- The ORDER BY clause chosen by the `switch filter.SortBy` of
`FindWithFilter`; the default arm is `created_at DESC`.  The store's sort is
modelled as a deterministic sort agreeing with the ORDER BY key (PostgreSQL
promises the key order, not a particular tie order). -/
def sortRows (f : FilterRequest) (rows : List Ad) : List Ad :=
  match f.SortBy with
  | "price_asc" => List.insertionSort adRelAsc rows
  | "price_desc" => List.insertionSort adRelDesc rows
  | "date_desc" => List.insertionSort adRelDate rows
  | _ => List.insertionSort adRelDate rows

/-- The rows of the store matching the filter's WHERE clauses (the set the
count query `query.Count(&totalCount)` measures, before any pagination
clause is appended). -/
def matchedRows (f : FilterRequest) (store : Store) : List Ad :=
  store.filter (adMatches f)

/-- Decimal digit accumulation over the token's characters. -/
def parseDigits : List Char → Nat → Option Nat
  | [], acc => some acc
  | c :: cs, acc =>
    if 48 ≤ c.toNat ∧ c.toNat ≤ 57 then
      parseDigits cs (acc * 10 + (c.toNat - 48))
    else
      none

/-- The PostgreSQL text-to-integer cast applied to the page token (the
service only ever issues tokens rendered with `%d`, so the relevant domain
is plain decimal digit strings; anything else is a cast error). -/
def parseNat? (s : String) : Option Nat :=
  if s.data = [] then none else parseDigits s.data 0

/-- Resolution of a non-empty page token:
`r.db.First(&lastAd, "id = ?", filter.PageToken)` compares the integer id
column against the token text over the whole ads table; a non-numeric token
is a cast failure and an unmatched id is a record-not-found, both returned
as errors. -/
def resolveToken (tok : String) (store : Store) : Except RepoError (Option Nat) :=
  if tok = "" then
    Except.ok none
  else
    match parseNat? tok with
    | none => Except.error RepoError.badToken
    | some n =>
      match store.find? (fun a => a.ID = n) with
      | none => Except.error RepoError.tokenNotFound
      | some lastAd => Except.ok (some lastAd.ID)

/-- The cursor clause `query.Where("id > ?", lastAd.ID)` (a WHERE clause, so
it applies before ORDER BY). -/
def cursorRows (rows : List Ad) (cursor : Option Nat) : List Ad :=
  match cursor with
  | none => rows
  | some lastId => rows.filter (fun a => lastId < a.ID)

/-- Page size actually used: the requested size, or 20 when it is zero. -/
def effPageSize (f : FilterRequest) : Int :=
  if f.PageSize = 0 then 20 else f.PageSize

/-- The ordered row stream the page is cut from: matching rows, restricted
by the cursor, in the ORDER BY order. -/
def pageRows (f : FilterRequest) (store : Store) (cursor : Option Nat) : List Ad :=
  sortRows f (cursorRows (matchedRows f store) cursor)

/-- `repository.FindWithFilter`: filter, count, resolve the cursor, sort,
fetch one row beyond the page size (`Limit(pageSize + 1)`), and trim: when
the extra row is present the page is `ads[:pageSize]` and the next-page
token is `ads[pageSize-1].ID` (the id of the last returned row), otherwise
the token is empty. -/
def FindWithFilter (f : FilterRequest) (store : Store) : Except RepoError PaginatedResponse := do
  let totalCount : Int := (matchedRows f store).length
  let cursor ← resolveToken f.PageToken store
  let pageSize := effPageSize f
  let fetched := (pageRows f store cursor).take (pageSize + 1).toNat
  if pageSize < (fetched.length : Int) then
    pure { Items := fetched.take pageSize.toNat,
           NextPage :=
             match fetched[(pageSize - 1).toNat]? with
             | some a => toString a.ID
             | none => "",
           TotalCount := totalCount }
  else
    pure { Items := fetched, NextPage := "", TotalCount := totalCount }

/-- Go's `%v` rendering of an int slice: `[1 2 3]`. -/
def goIntSlice (xs : List Int) : String :=
  "[" ++ String.intercalate " " (xs.map toString) ++ "]"

/-- Go's `%v` rendering of a string slice: `[a b c]`. -/
def goStrSlice (xs : List String) : String :=
  "[" ++ String.intercalate " " xs ++ "]"

/-- `usecase.buildCacheKey`: `ads:filter:%v:%v:%v:%v:%v` over category ids,
text query, sort mode, page token and page size, then `:%v=%v` appended for
each property filter (property id and values) in filter-supplied order.
Note which fields of the filter it does NOT mention: `MinPrice`, `MaxPrice`,
`Currency`, `Status`, `Properties`, `Lang`. -/
def buildCacheKey (f : FilterRequest) : String :=
  let base := "ads:filter:" ++ goIntSlice f.CategoryIDs ++ ":" ++ f.TextSearch
    ++ ":" ++ f.SortBy ++ ":" ++ f.PageToken ++ ":" ++ toString f.PageSize
  f.PropertyFilters.foldl
    (fun k p => k ++ ":" ++ toString p.PropertyID ++ "=" ++ goStrSlice p.Values)
    base

/-- The JSON documents exchanged with the cache.  `encoding/json` renders a
document deterministically, so byte equality of cached payloads coincides
with equality of these documents; the cache stores documents rather than
their textual rendering. -/
inductive Json where
  | null
  | bool (b : Bool)
  | num (n : Int)
  | str (s : String)
  | arr (xs : List Json)
  | obj (fields : List (String × Json))

/-- Field lookup in a JSON object (json.Unmarshal matches by name). -/
def jField (fs : List (String × Json)) (k : String) : Option Json :=
  (fs.find? (fun p => p.1 = k)).map (fun p => p.2)

def asInt : Json → Option Int
  | Json.num n => some n
  | _ => none

def asStr : Json → Option String
  | Json.str s => some s
  | _ => none

def asArr : Json → Option (List Json)
  | Json.arr xs => some xs
  | _ => none

def asObj : Json → Option (List (String × Json))
  | Json.obj fs => some fs
  | _ => none

/-- Decode every element of a JSON array, failing if any element fails. -/
def decodeList {α : Type} (d : Json → Option α) : List Json → Option (List α)
  | [] => some []
  | j :: js =>
    match d j, decodeList d js with
    | some a, some rest => some (a :: rest)
    | _, _ => none

/-- json.Marshal of `MultiLangText` (tags `lang`, `text`). -/
def encodeMLT (t : MultiLangText) : Json :=
  Json.obj [("lang", Json.num t.Lang), ("text", Json.str t.Text)]

/-- json.Unmarshal of a `MultiLangText` document. -/
def decodeMLT (j : Json) : Option MultiLangText := do
  let fs ← asObj j
  let l ← (jField fs "lang").bind asInt
  let s ← (jField fs "text").bind asStr
  pure { Lang := l, Text := s }

/-- json.Marshal of `Price` (tags `value`, `currency`). -/
def encodePrice (p : OneWay.Price) : Json :=
  Json.obj [("value", Json.num p.Value), ("currency", Json.str p.Currency)]

/-- json.Unmarshal of a `Price` document. -/
def decodePrice (j : Json) : Option OneWay.Price := do
  let fs ← asObj j
  let v ← (jField fs "value").bind asInt
  let c ← (jField fs "currency").bind asStr
  pure { Value := v, Currency := c }

/-- Decode a JSON object of string-valued attributes. -/
def decodeAttrs : List (String × Json) → Option (List (String × String))
  | [] => some []
  | (k, Json.str v) :: rest => (decodeAttrs rest).map (fun tl => (k, v) :: tl)
  | _ => none

/-- json.Marshal of `Ad`, following the struct tags of domain/ad.go in field
order: `id`, `title_multi`, `body_multi,omitempty`, `attributes,omitempty`,
`category_ids,omitempty`, `status`, `price,omitempty`, `created_at`,
`updated_at`; `SearchVector` has tag `-` and is never emitted.  (Timestamps
are integers in the model.) -/
def encodeAd (a : Ad) : Json :=
  Json.obj
    ([("id", Json.num (a.ID : Int)), ("title_multi", Json.arr (a.Title.map encodeMLT))]
      ++ (if a.Description = [] then []
          else [("body_multi", Json.arr (a.Description.map encodeMLT))])
      ++ (if a.Attributes = [] then []
          else [("attributes", Json.obj (a.Attributes.map (fun p => (p.1, Json.str p.2))))])
      ++ (if a.CategoryIDs = [] then []
          else [("category_ids", Json.arr (a.CategoryIDs.map Json.num))])
      ++ [("status", Json.num a.Status)]
      ++ (match a.Price with
          | none => []
          | some p => [("price", encodePrice p)])
      ++ [("created_at", Json.num a.CreatedAt), ("updated_at", Json.num a.UpdatedAt)])

/-- json.Unmarshal of an `Ad` document: absent `omitempty` fields decode to
their zero values; the unserialized `SearchVector` always decodes to its
zero value. -/
def decodeAd (j : Json) : Option Ad := do
  let fs ← asObj j
  let i ← (jField fs "id").bind asInt
  let idN ← if 0 ≤ i then some i.toNat else none
  let title ← ((jField fs "title_multi").bind asArr).bind (decodeList decodeMLT)
  let descr ←
    match jField fs "body_multi" with
    | none => some []
    | some dj => (asArr dj).bind (decodeList decodeMLT)
  let attrs ←
    match jField fs "attributes" with
    | none => some []
    | some aj => (asObj aj).bind decodeAttrs
  let cats ←
    match jField fs "category_ids" with
    | none => some []
    | some cj => (asArr cj).bind (decodeList asInt)
  let st ← (jField fs "status").bind asInt
  let pr ←
    match jField fs "price" with
    | none => some none
    | some pj => (decodePrice pj).map some
  let ca ← (jField fs "created_at").bind asInt
  let ua ← (jField fs "updated_at").bind asInt
  pure { ID := idN, Title := title, Description := descr, Attributes := attrs,
         CategoryIDs := cats, Status := st, Price := pr, SearchVector := [],
         CreatedAt := ca, UpdatedAt := ua }

/-- json.Marshal of `PaginatedResponse` (tags `items`, `next_page,omitempty`,
`total_count`). -/
def encodeResponse (r : PaginatedResponse) : Json :=
  Json.obj
    ([("items", Json.arr (r.Items.map encodeAd))]
      ++ (if r.NextPage = "" then [] else [("next_page", Json.str r.NextPage)])
      ++ [("total_count", Json.num r.TotalCount)])

/-- json.Unmarshal of a `PaginatedResponse` document. -/
def decodeResponse (j : Json) : Option PaginatedResponse := do
  let fs ← asObj j
  let items ← ((jField fs "items").bind asArr).bind (decodeList decodeAd)
  let np ←
    match jField fs "next_page" with
    | none => some ""
    | some x => asStr x
  let tc ← (jField fs "total_count").bind asInt
  pure { Items := items, NextPage := np, TotalCount := tc }

/-- What survives a serialize/deserialize round trip of an ad: everything
except the never-serialized search vector, which resets to its zero value. -/
def scrubAd (a : Ad) : Ad :=
  { a with SearchVector := [] }

/-- Round-trip image of a response. -/
def scrubResponse (r : PaginatedResponse) : PaginatedResponse :=
  { r with Items := r.Items.map scrubAd }

/-- The Redis collaborator: an association list from exact key strings to
cached JSON payloads. -/
abbrev Cache := List (String × Json)

/-- Redis GET. -/
def lookupCache (c : Cache) (k : String) : Option Json :=
  (c.find? (fun p => p.1 = k)).map (fun p => p.2)

/-- Redis SET (overwrite). -/
def setCache (c : Cache) (k : String) (v : Json) : Cache :=
  (k, v) :: c.filter (fun p => p.1 ≠ k)

/-- Redis DEL: deletes exactly the literal key named — the DEL command
performs no glob/pattern expansion, so `DEL "ads:*"` removes only a key
whose name is the eight characters `ads:*`. -/
def delCache (c : Cache) (k : String) : Cache :=
  c.filter (fun p => p.1 ≠ k)

/-- `usecase.GetAds`, as a function of the filter, the current store and
cache, and the outcomes of the fallible collaborator calls that the Go code
inspects: `getOk` is whether `cache.Get` itself succeeds (a miss returns
`redis.Nil`, folded into the `none` lookup), `marshalOk` whether
`json.Marshal(response)` succeeds and `setOk` whether `cache.Set` succeeds
(its error is discarded by the code).  Returns the result and the cache
afterwards.  A cache hit whose payload deserializes is returned without
touching the store; every other path queries the repository and, on
success, best-effort writes the serialized result back.  `cacheServed` is
the hit path factored out: the response served from cache, when the GET
succeeds, the key is present and the payload deserializes. -/
def cacheServed (f : FilterRequest) (cache : Cache) (getOk : Bool) : Option PaginatedResponse :=
  match (if getOk then lookupCache cache (buildCacheKey f) else none) with
  | some payload => decodeResponse payload
  | none => none

def GetAds (f : FilterRequest) (store : Store) (cache : Cache)
    (getOk marshalOk setOk : Bool) : Except RepoError PaginatedResponse × Cache :=
  match cacheServed f cache getOk with
  | some resp => (Except.ok resp, cache)
  | none =>
    match FindWithFilter f store with
    | Except.error e => (Except.error e, cache)
    | Except.ok resp =>
      (Except.ok resp,
       if marshalOk && setOk then setCache cache (buildCacheKey f) (encodeResponse resp)
       else cache)

/-- State the use-case layer acts on: the relational store and the cache. -/
structure World where
  store : Store
  cache : Cache

/-- `usecase.CreateAd`, as a function of the repository call's outcome
(`mutation`, the store after a successful insert or the propagated error)
and of whether the `cache.Del` round trip succeeds (`delOk`; its error is
never inspected).  Returns the new world, the list of keys passed to
`cache.Del` (empty when no deletion was attempted), and the returned error.
On mutation failure the error returns before any cache call; on success
`cache.Del(ctx, "ads:*")` is issued and the call returns nil regardless of
the deletion's outcome. -/
def CreateAd (w : World) (mutation : Except String Store) (delOk : Bool) :
    World × List String × Option String :=
  match mutation with
  | Except.error e => (w, [], some e)
  | Except.ok s =>
    ({ store := s, cache := if delOk then delCache w.cache "ads:*" else w.cache },
     ["ads:*"], none)

/-- `usecase.UpdateAd`: identical control flow to `CreateAd` around the
repository's update. -/
def UpdateAd (w : World) (mutation : Except String Store) (delOk : Bool) :
    World × List String × Option String :=
  match mutation with
  | Except.error e => (w, [], some e)
  | Except.ok s =>
    ({ store := s, cache := if delOk then delCache w.cache "ads:*" else w.cache },
     ["ads:*"], none)

/-- `usecase.DeleteAd`: identical control flow to `CreateAd` around the
repository's delete. -/
def DeleteAd (w : World) (mutation : Except String Store) (delOk : Bool) :
    World × List String × Option String :=
  match mutation with
  | Except.error e => (w, [], some e)
  | Except.ok s =>
    ({ store := s, cache := if delOk then delCache w.cache "ads:*" else w.cache },
     ["ads:*"], none)

/-! ### Concrete sample data

The spec's running example: ad A (title en="Bike", price 100 USD), ad B
(title en="Car", price 50 USD), ad C (no price); ids are assigned in
creation order and creation timestamps track ids. -/

def bikeAd : Ad :=
  { ID := 1, Title := [{ Lang := 2, Text := "Bike" }], Description := [],
    Attributes := [], CategoryIDs := [], Status := 0,
    Price := some { Value := 100, Currency := "840" },
    SearchVector := ["bike"], CreatedAt := 1, UpdatedAt := 1 }

def carAd : Ad :=
  { ID := 2, Title := [{ Lang := 2, Text := "Car" }], Description := [],
    Attributes := [], CategoryIDs := [], Status := 0,
    Price := some { Value := 50, Currency := "840" },
    SearchVector := ["car"], CreatedAt := 2, UpdatedAt := 2 }

def boatAd : Ad :=
  { ID := 3, Title := [{ Lang := 2, Text := "Boat" }], Description := [],
    Attributes := [], CategoryIDs := [], Status := 0, Price := none,
    SearchVector := ["boat"], CreatedAt := 3, UpdatedAt := 3 }

def demoStore : Store := [bikeAd, carAd, boatAd]

/-- A filter with every optional field empty (the bare `GET /v3/ads?lang=en`). -/
def noFilter : FilterRequest :=
  { CategoryIDs := [], Properties := [], TextSearch := "", SortBy := "",
    PageToken := "", PageSize := 0, Lang := "en", MinPrice := none,
    MaxPrice := none, Currency := "", Status := none, PropertyFilters := [] }

def pageFilter : FilterRequest := { noFilter with PageSize := 2 }

def minPriceFilter : FilterRequest := { noFilter with MinPrice := some 100 }

def ascFilter : FilterRequest := { noFilter with SortBy := "price_asc" }

end OneWay

namespace OneWay

/-! ### Serialization round trip -/

theorem decodeMLT_encodeMLT (t : MultiLangText) : decodeMLT (encodeMLT t) = some t := by
  cases t
  rfl

theorem decodePrice_encodePrice (p : OneWay.Price) : decodePrice (encodePrice p) = some p := by
  cases p
  rfl

theorem decodeList_map {α : Type} (d : Json → Option α) {β : Type} (e : β → Json)
    (g : β → α) (h : ∀ x, d (e x) = some (g x)) :
    ∀ l : List β, decodeList d (l.map e) = some (l.map g) := by
  intro l
  induction l with
  | nil => rfl
  | cons x xs ih => simp [decodeList, h x, ih]

theorem decodeAttrs_enc (l : List (String × String)) :
    decodeAttrs (l.map (fun p => (p.1, Json.str p.2))) = some l := by
  induction l with
  | nil => rfl
  | cons x xs ih => simp [decodeAttrs, ih]

set_option maxHeartbeats 2000000 in
theorem decodeAd_encodeAd (a : Ad) : decodeAd (encodeAd a) = some (scrubAd a) := by
  obtain ⟨i, t, d, att, c, s, p, sv, ca, ua⟩ := a
  by_cases hd : d = [] <;> by_cases ha : att = [] <;> by_cases hc : c = [] <;> cases p <;>
    simp [encodeAd, decodeAd, scrubAd, hd, ha, hc, jField, asObj, asInt, asStr, asArr,
      List.find?, Option.bind, decodeList_map decodeMLT encodeMLT id decodeMLT_encodeMLT,
      decodeList_map asInt Json.num id (fun _ => rfl), decodeAttrs_enc,
      decodePrice_encodePrice]

theorem decodeResponse_encodeResponse (r : PaginatedResponse) :
    decodeResponse (encodeResponse r) = some (scrubResponse r) := by
  obtain ⟨items, np, tc⟩ := r
  by_cases hn : np = "" <;>
    simp [encodeResponse, decodeResponse, scrubResponse, hn, jField, asObj, asInt,
      asStr, asArr, List.find?, Option.bind,
      decodeList_map decodeAd encodeAd scrubAd decodeAd_encodeAd]

theorem encodeAd_scrubAd (a : Ad) : encodeAd (scrubAd a) = encodeAd a := rfl

theorem encodeResponse_scrubResponse (r : PaginatedResponse) :
    encodeResponse (scrubResponse r) = encodeResponse r := by
  simp [encodeResponse, scrubResponse, List.map_map, Function.comp_def, encodeAd_scrubAd]

/-! ### Order keys: transitivity, totality, sortedness of the page -/

theorem priceAscLe_trans (a b c : Ad) :
    priceAscLe a b = true → priceAscLe b c = true → priceAscLe a c = true := by
  unfold priceAscLe
  cases a.Price <;> cases b.Price <;> cases c.Price <;> simp <;> omega

theorem priceAscLe_total (a b : Ad) : (priceAscLe a b || priceAscLe b a) = true := by
  unfold priceAscLe
  cases a.Price <;> cases b.Price <;> simp <;> omega

theorem priceDescLe_trans (a b c : Ad) :
    priceDescLe a b = true → priceDescLe b c = true → priceDescLe a c = true := by
  unfold priceDescLe
  cases a.Price <;> cases b.Price <;> cases c.Price <;> simp <;> omega

theorem priceDescLe_total (a b : Ad) : (priceDescLe a b || priceDescLe b a) = true := by
  unfold priceDescLe
  cases a.Price <;> cases b.Price <;> simp <;> omega

instance : IsTrans Ad adRelAsc := ⟨fun a b c => priceAscLe_trans a b c⟩

instance : IsTotal Ad adRelAsc :=
  ⟨fun a b => Bool.or_eq_true_iff.mp (priceAscLe_total a b)⟩

instance : IsTrans Ad adRelDesc := ⟨fun a b c => priceDescLe_trans a b c⟩

instance : IsTotal Ad adRelDesc :=
  ⟨fun a b => Bool.or_eq_true_iff.mp (priceDescLe_total a b)⟩

theorem mem_sortRows {f : FilterRequest} {rows : List Ad} {a : Ad} :
    a ∈ sortRows f rows ↔ a ∈ rows := by
  unfold sortRows
  split <;> exact List.mem_insertionSort _

theorem sortRows_price_asc {f : FilterRequest} (h : f.SortBy = "price_asc")
    (rows : List Ad) : sortRows f rows = List.insertionSort adRelAsc rows := by
  unfold sortRows
  rw [h]
  rfl

theorem sortRows_price_desc {f : FilterRequest} (h : f.SortBy = "price_desc")
    (rows : List Ad) : sortRows f rows = List.insertionSort adRelDesc rows := by
  unfold sortRows
  rw [h]
  rfl

theorem mem_pageRows {f : FilterRequest} {store : Store} {cursor : Option Nat} {a : Ad}
    (h : a ∈ pageRows f store cursor) : a ∈ store ∧ adMatches f a = true := by
  rw [pageRows, mem_sortRows] at h
  have hm : a ∈ matchedRows f store := by
    cases cursor with
    | none => exact h
    | some lastId => exact (List.mem_filter.mp h).1
  exact List.mem_filter.mp hm

/-- Shape of every successful `FindWithFilter` call: the token resolved, the
returned items are a contiguous prefix of the ordered row stream, and the
total count measures the matching population ignoring pagination. -/
theorem find_ok_shape (f : FilterRequest) (store : Store) (resp : PaginatedResponse)
    (h : FindWithFilter f store = Except.ok resp) :
    ∃ cursor, resolveToken f.PageToken store = Except.ok cursor
      ∧ resp.Items.Sublist (pageRows f store cursor)
      ∧ resp.TotalCount = ((matchedRows f store).length : Int) := by
  unfold FindWithFilter at h
  cases hres : resolveToken f.PageToken store with
  | error e =>
    rw [hres] at h
    simp [Bind.bind, Except.bind] at h
  | ok cursor =>
    rw [hres] at h
    refine ⟨cursor, rfl, ?_⟩
    simp only [Bind.bind, Except.bind] at h
    split at h
    · simp only [pure, Except.pure, Except.ok.injEq] at h
      subst h
      have s1 := List.take_sublist (effPageSize f).toNat
        ((pageRows f store cursor).take ((effPageSize f) + 1).toNat)
      have s2 := List.take_sublist ((effPageSize f) + 1).toNat (pageRows f store cursor)
      exact ⟨s1.trans s2, rfl⟩
    · simp only [pure, Except.pure, Except.ok.injEq] at h
      subst h
      exact ⟨List.take_sublist _ _, rfl⟩

/-! ### Decimal rendering of ids is never the empty token -/

theorem le_length_toDigitsCore (b : Nat) (f : Nat) :
    ∀ (n : Nat) (l : List Char), l.length ≤ (Nat.toDigitsCore b f n l).length := by
  induction f with
  | zero => intro n l; simp [Nat.toDigitsCore]
  | succ f ih =>
    intro n l
    rw [Nat.toDigitsCore]
    split
    · simp
    · exact le_trans (by simp) (ih (n / b) (Nat.digitChar (n % b) :: l))

theorem toDigits_ne_nil (n : Nat) : Nat.toDigits 10 n ≠ [] := by
  unfold Nat.toDigits
  rw [Nat.toDigitsCore]
  intro hcon
  split at hcon
  · simp at hcon
  · have hlen := le_length_toDigitsCore 10 n (n / 10) [Nat.digitChar (n % 10)]
    rw [hcon] at hlen
    simp at hlen

theorem toString_nat_ne_empty (n : Nat) : toString n ≠ "" := by
  show Nat.repr n ≠ ""
  unfold Nat.repr
  intro hcon
  have hdata := congrArg String.data hcon
  simp [List.asString] at hdata
  exact toDigits_ne_nil n hdata

/-! ### Small helpers about the pipeline pieces -/

theorem cursorRows_nil (cursor : Option Nat) : cursorRows [] cursor = [] := by
  cases cursor <;> rfl

theorem sortRows_nil (f : FilterRequest) : sortRows f [] = [] := by
  unfold sortRows
  split <;> simp

theorem one_le_effPageSize {f : FilterRequest} (hp : 0 ≤ f.PageSize) :
    1 ≤ effPageSize f := by
  unfold effPageSize
  split <;> omega

theorem lookupCache_setCache_self (c : Cache) (k : String) (v : Json) :
    lookupCache (setCache c k v) k = some v := by
  simp [lookupCache, setCache, List.find?]

/-- The returned value of `GetAds` as a function of the hit path and the
repository result. -/
theorem getAds_fst (f : FilterRequest) (store : Store) (c : Cache) (g m s : Bool) :
    (GetAds f store c g m s).1 =
      match cacheServed f c g with
      | some resp => Except.ok resp
      | none => FindWithFilter f store := by
  unfold GetAds
  cases hcs : cacheServed f c g <;> cases hf : FindWithFilter f store <;> simp [hcs, hf]

/-- The bound-price clauses of the WHERE conjunction exclude NULL prices. -/
theorem adMatches_bound_excludes_null {f : FilterRequest} {a : Ad}
    (h : adMatches f a = true) (hb : f.MinPrice.isSome ∨ f.MaxPrice.isSome) :
    a.Price ≠ none := by
  intro hnone
  unfold adMatches at h
  rcases hb with hmin | hmax
  · obtain ⟨m, hm⟩ := Option.isSome_iff_exists.mp hmin
    simp [hm, hnone, Bool.and_eq_true] at h
  · obtain ⟨m, hm⟩ := Option.isSome_iff_exists.mp hmax
    simp [hm, hnone, Bool.and_eq_true] at h

theorem priceAscLe_spec {a b : Ad} (h : priceAscLe a b = true) :
    (∀ pa pb, a.Price = some pa → b.Price = some pb → pa.Value ≤ pb.Value)
    ∧ (a.Price = none → b.Price = none) := by
  unfold priceAscLe at h
  cases ha : a.Price <;> cases hb : b.Price <;> simp_all

theorem priceDescLe_spec {a b : Ad} (h : priceDescLe a b = true) :
    (∀ pa pb, a.Price = some pa → b.Price = some pb → pb.Value ≤ pa.Value)
    ∧ (a.Price = none → b.Price = none) := by
  unfold priceDescLe at h
  cases ha : a.Price <;> cases hb : b.Price <;> simp_all

/-! ### The claims -/

/-- Claim C10: the required display-language parameter has no effect on the
result: two filters differing only in `Lang` produce the same cache key, the
same repository result, and the same `GetAds` result and cache state —
`Lang` is neither part of the cache key nor consulted by any predicate,
sort, or pagination step. -/
theorem lang_has_no_effect (f : FilterRequest) (l : String) (store : Store)
    (c : Cache) (g m s : Bool) :
    buildCacheKey { f with Lang := l } = buildCacheKey f
    ∧ FindWithFilter { f with Lang := l } store = FindWithFilter f store
    ∧ GetAds { f with Lang := l } store c g m s = GetAds f store c g m s :=
  ⟨rfl, rfl, rfl⟩

/-- Claim C8: write-path atomicity with respect to the cache: when the
repository mutation fails, the error is returned, the cache is untouched
and no deletion is attempted (the trace of keys passed to `cache.Del` is
empty); when it succeeds, the deletion is issued and the call returns
success whether or not the deletion succeeds. -/
theorem write_path_cache_atomicity (w : World) (mutation : Except String Store)
    (delOk : Bool) :
    (∀ e, mutation = Except.error e →
      CreateAd w mutation delOk = (w, [], some e)
      ∧ UpdateAd w mutation delOk = (w, [], some e)
      ∧ DeleteAd w mutation delOk = (w, [], some e))
    ∧ (∀ s, mutation = Except.ok s →
      (CreateAd w mutation delOk).2.1 = ["ads:*"]
      ∧ (CreateAd w mutation delOk).2.2 = none
      ∧ (UpdateAd w mutation delOk).2.1 = ["ads:*"]
      ∧ (UpdateAd w mutation delOk).2.2 = none
      ∧ (DeleteAd w mutation delOk).2.1 = ["ads:*"]
      ∧ (DeleteAd w mutation delOk).2.2 = none) := by
  constructor
  · rintro e rfl
    exact ⟨rfl, rfl, rfl⟩
  · rintro s rfl
    exact ⟨rfl, rfl, rfl, rfl, rfl, rfl⟩

theorem write_path_cache_atomicity_witness :
    CreateAd ⟨demoStore, []⟩ (Except.error "db down") true = (⟨demoStore, []⟩, [], some "db down")
    ∧ (CreateAd ⟨demoStore, []⟩ (Except.ok []) false).2.2 = none :=
  ⟨((write_path_cache_atomicity ⟨demoStore, []⟩ (Except.error "db down") true).1
      "db down" rfl).1,
   ((write_path_cache_atomicity ⟨demoStore, []⟩ (Except.ok []) false).2 [] rfl).2.1⟩

/-- Claim C7: cache failures are fully absorbed on the read path.  A failed
cache GET, a missing key, or an undeserializable payload all fall through to
the repository and return exactly its result (value or error); the marshal
and cache-SET outcomes never change the returned value; and an error is
returned exactly when the hit path did not serve and the repository
errs. -/
theorem cache_failures_absorbed (f : FilterRequest) (store : Store) (c : Cache)
    (g m s m2 s2 : Bool) :
    ((GetAds f store c false m s).1 = FindWithFilter f store)
    ∧ (lookupCache c (buildCacheKey f) = none →
        (GetAds f store c g m s).1 = FindWithFilter f store)
    ∧ (∀ p, lookupCache c (buildCacheKey f) = some p → decodeResponse p = none →
        (GetAds f store c g m s).1 = FindWithFilter f store)
    ∧ ((GetAds f store c g m s).1 = (GetAds f store c g m2 s2).1)
    ∧ ((∃ e, (GetAds f store c g m s).1 = Except.error e) ↔
        (cacheServed f c g = none ∧ ∃ e, FindWithFilter f store = Except.error e)) := by
  have hfst := getAds_fst f store c g m s
  have hfst2 := getAds_fst f store c g m2 s2
  refine ⟨?_, ?_, ?_, ?_, ?_⟩
  · rw [getAds_fst]
    simp [cacheServed]
  · intro hlook
    rw [hfst]
    have : cacheServed f c g = none := by
      cases g <;> simp [cacheServed, hlook]
    simp [this]
  · intro p hlook hdec
    rw [hfst]
    have : cacheServed f c g = none := by
      cases g <;> simp [cacheServed, hlook, hdec]
    simp [this]
  · rw [hfst, hfst2]
  · rw [hfst]
    cases hcs : cacheServed f c g <;> cases hf : FindWithFilter f store <;> simp [hf]

theorem cache_failures_absorbed_witness :
    (GetAds noFilter demoStore [] true true true).1 = FindWithFilter noFilter demoStore :=
  (cache_failures_absorbed noFilter demoStore [] true true true true true).2.1 rfl

/-- Claim C1 (evaluation of the code at a failing input): after a cached
read of the empty filter, a successful `CreateAd` issues
`cache.Del(ctx, "ads:*")`, which removes nothing (Redis DEL takes literal
keys, and no cached key is the literal string `ads:*`), so the next
`GetAds` with the same filter is served the pre-mutation payload (empty
page) instead of the fresh store query (which now finds the new ad). -/
theorem create_leaves_stale_cache :
    (GetAds noFilter [] [] true true true).1 = Except.ok ⟨[], "", 0⟩
    ∧ (CreateAd ⟨[], (GetAds noFilter [] [] true true true).2⟩
        (Except.ok [bikeAd]) true).1.cache = (GetAds noFilter [] [] true true true).2
    ∧ (GetAds noFilter [bikeAd]
        (CreateAd ⟨[], (GetAds noFilter [] [] true true true).2⟩
          (Except.ok [bikeAd]) true).1.cache true true true).1 = Except.ok ⟨[], "", 0⟩
    ∧ FindWithFilter noFilter [bikeAd] = Except.ok ⟨[bikeAd], "", 1⟩
    ∧ (⟨[], "", 0⟩ : PaginatedResponse) ≠ ⟨[bikeAd], "", 1⟩ :=
  ⟨by rfl, by rfl, by rfl, by rfl, by decide⟩

/-- Claim C2 (evaluation of the code at a failing input): `buildCacheKey`
does not mention the price bounds, so a filter with no bounds and the same
filter with `MinPrice = 100` share one cache key while the query builder
treats them differently: over a store holding only the 50-USD ad, the first
returns that ad and the second returns the empty page. -/
theorem cacheKey_ignores_price_bounds :
    buildCacheKey noFilter = buildCacheKey minPriceFilter
    ∧ FindWithFilter noFilter [carAd] = Except.ok ⟨[carAd], "", 1⟩
    ∧ FindWithFilter minPriceFilter [carAd] = Except.ok ⟨[], "", 0⟩
    ∧ (⟨[carAd], "", 1⟩ : PaginatedResponse) ≠ ⟨[], "", 0⟩ :=
  ⟨by rfl, by rfl, by rfl, by decide⟩

/-- Claim C3 (evaluation of the code at a failing input): with three ads
created in id order and page size 2, the first date-descending page is
[id 3, id 2] with next-page token "2"; resubmitting that token restricts to
ids strictly GREATER than 2, so the second page is [id 3] — it repeats an
item of the first page and does not contain the one matching ad that was
still unseen (id 1). -/
theorem pagination_cursor_overlaps :
    FindWithFilter pageFilter demoStore = Except.ok ⟨[boatAd, carAd], "2", 3⟩
    ∧ FindWithFilter { pageFilter with PageToken := "2" } demoStore
        = Except.ok ⟨[boatAd], "", 3⟩
    ∧ boatAd ∈ ([boatAd, carAd] : List Ad)
    ∧ boatAd ∈ ([boatAd] : List Ad)
    ∧ bikeAd ∉ ([boatAd] : List Ad) :=
  ⟨by rfl, by rfl, by decide, by decide, by decide⟩

/-- Claim C6: a filter whose predicates match no ads (with an empty or
resolvable page token) yields the empty page: no items, `TotalCount = 0`,
empty next-page token — from `FindWithFilter`, and from `GetAds` whenever
the key is not in the cache. -/
theorem empty_match_response (f : FilterRequest) (store : Store) (c : Cache)
    (g m s : Bool)
    (hp : 0 ≤ f.PageSize)
    (hm : ∀ a ∈ store, adMatches f a = false)
    (ht : ∃ cursor, resolveToken f.PageToken store = Except.ok cursor) :
    FindWithFilter f store = Except.ok ⟨[], "", 0⟩
    ∧ (lookupCache c (buildCacheKey f) = none →
        (GetAds f store c g m s).1 = Except.ok ⟨[], "", 0⟩) := by
  obtain ⟨cursor, hres⟩ := ht
  have hmatched : matchedRows f store = [] := by
    unfold matchedRows
    exact List.filter_eq_nil_iff.mpr (fun a ha => by simp [hm a ha])
  have hrows : pageRows f store cursor = [] := by
    unfold pageRows
    rw [hmatched, cursorRows_nil, sortRows_nil]
  have hN := one_le_effPageSize hp
  have hfind : FindWithFilter f store = Except.ok ⟨[], "", 0⟩ := by
    unfold FindWithFilter
    rw [hres]
    simp only [Bind.bind, Except.bind, hrows, hmatched, List.take_nil, List.length_nil]
    rw [if_neg (by omega)]
    rfl
  refine ⟨hfind, fun hlook => ?_⟩
  have hserved : cacheServed f c g = none := by
    cases g <;> simp [cacheServed, hlook]
  rw [getAds_fst]
  simp [hserved, hfind]

theorem empty_match_response_witness :
    FindWithFilter minPriceFilter [carAd] = Except.ok ⟨[], "", 0⟩ :=
  (empty_match_response minPriceFilter [carAd] [] true true true
    (by decide) (by decide) ⟨none, rfl⟩).1

/-- One read through the cache, starting from a cache whose entry for the
key (if any) is the serialized repository result: the call succeeds, its
value serializes to the same bytes as the repository result, and the cache
afterwards is again in that state.  (The served value itself may differ from
the repository value only in the never-serialized search vector.) -/
theorem getAds_coherent_step (f : FilterRequest) (store : Store) (c : Cache)
    (r : PaginatedResponse) (g m s : Bool)
    (hrepo : FindWithFilter f store = Except.ok r)
    (hcoh : lookupCache c (buildCacheKey f) = none
      ∨ lookupCache c (buildCacheKey f) = some (encodeResponse r)) :
    ∃ rr, (GetAds f store c g m s).1 = Except.ok rr
      ∧ encodeResponse rr = encodeResponse r
      ∧ (lookupCache (GetAds f store c g m s).2 (buildCacheKey f) = none
        ∨ lookupCache (GetAds f store c g m s).2 (buildCacheKey f)
            = some (encodeResponse r)) := by
  cases hcs : cacheServed f c g with
  | some resp =>
    have hresp : resp = scrubResponse r := by
      unfold cacheServed at hcs
      cases g with
      | false => simp at hcs
      | true =>
        rcases hcoh with h0 | h0 <;> simp only [if_true, h0] at hcs
        · simp at hcs
        · rw [decodeResponse_encodeResponse] at hcs
          exact (Option.some.injEq _ _ ▸ hcs).symm
    have hga : GetAds f store c g m s = (Except.ok resp, c) := by
      unfold GetAds
      rw [hcs]
    refine ⟨resp, by rw [hga], ?_, ?_⟩
    · rw [hresp, encodeResponse_scrubResponse]
    · rw [hga]
      exact hcoh
  | none =>
    have hga : GetAds f store c g m s =
        (Except.ok r,
         if m && s then setCache c (buildCacheKey f) (encodeResponse r) else c) := by
      unfold GetAds
      rw [hcs, hrepo]
    refine ⟨r, by rw [hga], rfl, ?_⟩
    rw [hga]
    by_cases hms : (m && s) = true
    · rw [if_pos hms]
      exact Or.inr (lookupCache_setCache_self _ _ _)
    · rw [if_neg hms]
      exact hcoh

/-- Claim C9: read idempotence through the cache.  Two `GetAds` calls with
the same filter over an unchanged store — the cache initially either missing
the key or holding the serialized repository result — both succeed and
return responses whose serialized forms (the bytes a handler would emit)
are identical, whichever of the two calls was cache-served. -/
theorem read_idempotent_bytes (f : FilterRequest) (store : Store) (c0 : Cache)
    (r : PaginatedResponse) (g1 m1 s1 g2 m2 s2 : Bool)
    (hrepo : FindWithFilter f store = Except.ok r)
    (hcoh : lookupCache c0 (buildCacheKey f) = none
      ∨ lookupCache c0 (buildCacheKey f) = some (encodeResponse r)) :
    ∃ r1 r2, (GetAds f store c0 g1 m1 s1).1 = Except.ok r1
      ∧ (GetAds f store (GetAds f store c0 g1 m1 s1).2 g2 m2 s2).1 = Except.ok r2
      ∧ encodeResponse r1 = encodeResponse r2 := by
  obtain ⟨r1, h1, he1, hcoh1⟩ := getAds_coherent_step f store c0 r g1 m1 s1 hrepo hcoh
  obtain ⟨r2, h2, he2, -⟩ :=
    getAds_coherent_step f store (GetAds f store c0 g1 m1 s1).2 r g2 m2 s2 hrepo hcoh1
  exact ⟨r1, r2, h1, h2, by rw [he1, he2]⟩

theorem read_idempotent_bytes_witness :
    ∃ r1 r2, (GetAds noFilter demoStore [] true true true).1 = Except.ok r1
      ∧ (GetAds noFilter demoStore (GetAds noFilter demoStore [] true true true).2
          true true true).1 = Except.ok r2
      ∧ encodeResponse r1 = encodeResponse r2 :=
  read_idempotent_bytes noFilter demoStore [] ⟨[boatAd, carAd, bikeAd], "", 3⟩
    true true true true true true (by rfl) (Or.inl rfl)

/-- Claim C4: price sorting pushes NULL prices last and price bounds
exclude them.  In every successful result: under `price_asc` any earlier
item's price is at most any later priced item's price and no null-price
item precedes a priced one (so priced ads come in ascending order, then all
null-price ads); symmetrically under `price_desc`; and when a lower or
upper bound is requested, no returned ad has a null price. -/
theorem price_sort_nulls_last (f : FilterRequest) (store : Store)
    (resp : PaginatedResponse)
    (hfind : FindWithFilter f store = Except.ok resp) :
    (f.SortBy = "price_asc" → resp.Items.Pairwise (fun a b =>
        (∀ pa pb, a.Price = some pa → b.Price = some pb → pa.Value ≤ pb.Value)
        ∧ (a.Price = none → b.Price = none)))
    ∧ (f.SortBy = "price_desc" → resp.Items.Pairwise (fun a b =>
        (∀ pa pb, a.Price = some pa → b.Price = some pb → pb.Value ≤ pa.Value)
        ∧ (a.Price = none → b.Price = none)))
    ∧ ((f.MinPrice.isSome ∨ f.MaxPrice.isSome) →
        ∀ a ∈ resp.Items, a.Price ≠ none) := by
  obtain ⟨cursor, hres, hsub, htot⟩ := find_ok_shape f store resp hfind
  refine ⟨fun hsort => ?_, fun hsort => ?_, fun hb a hmem => ?_⟩
  · have hsorted : (pageRows f store cursor).Pairwise adRelAsc := by
      unfold pageRows
      rw [sortRows_price_asc hsort]
      exact List.sorted_insertionSort adRelAsc _
    exact (List.Pairwise.sublist hsub hsorted).imp (fun h => priceAscLe_spec h)
  · have hsorted : (pageRows f store cursor).Pairwise adRelDesc := by
      unfold pageRows
      rw [sortRows_price_desc hsort]
      exact List.sorted_insertionSort adRelDesc _
    exact (List.Pairwise.sublist hsub hsorted).imp (fun h => priceDescLe_spec h)
  · exact adMatches_bound_excludes_null (mem_pageRows (hsub.subset hmem)).2 hb

theorem price_sort_nulls_last_witness :
    (⟨[carAd, bikeAd, boatAd], "", 3⟩ : PaginatedResponse).Items.Pairwise (fun a b =>
        (∀ pa pb, a.Price = some pa → b.Price = some pb → pa.Value ≤ pb.Value)
        ∧ (a.Price = none → b.Price = none)) :=
  (price_sort_nulls_last ascFilter demoStore ⟨[carAd, bikeAd, boatAd], "", 3⟩
    (by rfl)).1 rfl

/-- Claim C5: page size and extra-row trimming.  For a non-negative
requested size and a resolvable token, the effective page size is the
requested one (20 when zero); the returned items are exactly the first
`pageSize` ordered matching rows past the cursor; the next-page token is
non-empty exactly when an extra row beyond the page exists; and when it is,
the token is the decimal id of the last returned item. -/
theorem page_size_default_and_trim (f : FilterRequest) (store : Store)
    (resp : PaginatedResponse) (cursor : Option Nat)
    (hp : 0 ≤ f.PageSize)
    (hres : resolveToken f.PageToken store = Except.ok cursor)
    (hfind : FindWithFilter f store = Except.ok resp) :
    effPageSize f = (if f.PageSize = 0 then 20 else f.PageSize)
    ∧ resp.Items = (pageRows f store cursor).take (effPageSize f).toNat
    ∧ (resp.NextPage ≠ "" ↔
        effPageSize f < ((pageRows f store cursor).length : Int))
    ∧ (resp.NextPage ≠ "" →
        ∃ a, resp.Items.getLast? = some a ∧ resp.NextPage = toString a.ID) := by
  have hN1 : 1 ≤ effPageSize f := one_le_effPageSize hp
  refine ⟨rfl, ?_⟩
  unfold FindWithFilter at hfind
  rw [hres] at hfind
  simp only [Bind.bind, Except.bind] at hfind
  split at hfind
  · -- the extra row was fetched: trim it, emit the last returned id
    rename_i hlen
    simp only [pure, Except.pure, Except.ok.injEq] at hfind
    subst hfind
    have hflen : ((pageRows f store cursor).take ((effPageSize f) + 1).toNat).length
        = min ((effPageSize f) + 1).toNat (pageRows f store cursor).length :=
      List.length_take _ _
    have hLlen : (effPageSize f).toNat + 1 ≤ (pageRows f store cursor).length := by
      rw [hflen] at hlen
      omega
    have hItems : ((pageRows f store cursor).take ((effPageSize f) + 1).toNat).take
        (effPageSize f).toNat = (pageRows f store cursor).take (effPageSize f).toNat := by
      rw [List.take_take]
      have hmin : (effPageSize f).toNat ⊓ ((effPageSize f) + 1).toNat
          = (effPageSize f).toNat := by omega
      rw [hmin]
    have hidx : ((effPageSize f) - 1).toNat
        < ((pageRows f store cursor).take ((effPageSize f) + 1).toNat).length := by
      rw [hflen]
      omega
    have hget : ((pageRows f store cursor).take ((effPageSize f) + 1).toNat)[
        ((effPageSize f) - 1).toNat]? =
        some (((pageRows f store cursor).take ((effPageSize f) + 1).toNat).get
          ⟨((effPageSize f) - 1).toNat, hidx⟩) := by
      rw [List.getElem?_eq_getElem hidx]
      rfl
    refine ⟨by simpa using hItems, ?_, ?_⟩
    · simp only [hget]
      exact iff_of_true (toString_nat_ne_empty _) (by omega)
    · intro hne
      refine ⟨((pageRows f store cursor).take ((effPageSize f) + 1).toNat).get
        ⟨((effPageSize f) - 1).toNat, hidx⟩, ?_, ?_⟩
      · have hIlen : (((pageRows f store cursor).take ((effPageSize f) + 1).toNat).take
            (effPageSize f).toNat).length = (effPageSize f).toNat := by
          rw [List.length_take, hflen]
          omega
        rw [List.getLast?_eq_getElem?, hIlen, List.getElem?_take]
        rw [if_pos (by omega)]
        have : (effPageSize f).toNat - 1 = ((effPageSize f) - 1).toNat := by omega
        rw [this, hget]
      · simp only [hget]
  · -- no extra row: the whole remainder is returned, token empty
    rename_i hlen
    simp only [pure, Except.pure, Except.ok.injEq] at hfind
    subst hfind
    have hflen : ((pageRows f store cursor).take ((effPageSize f) + 1).toNat).length
        = min ((effPageSize f) + 1).toNat (pageRows f store cursor).length :=
      List.length_take _ _
    have hLshort : (pageRows f store cursor).length ≤ (effPageSize f).toNat := by
      rw [not_lt, hflen] at hlen
      omega
    have htake1 : (pageRows f store cursor).take ((effPageSize f) + 1).toNat
        = pageRows f store cursor := List.take_of_length_le (by omega)
    have htake2 : (pageRows f store cursor).take (effPageSize f).toNat
        = pageRows f store cursor := List.take_of_length_le (by omega)
    refine ⟨by simp [htake1, htake2], ?_, ?_⟩
    · exact iff_of_false (by simp) (by omega)
    · intro hne
      exact absurd rfl hne

theorem page_size_default_and_trim_witness :
    (⟨[boatAd, carAd], "2", 3⟩ : PaginatedResponse).NextPage ≠ "" ∧
    (∃ a, (⟨[boatAd, carAd], "2", 3⟩ : PaginatedResponse).Items.getLast? = some a
      ∧ (⟨[boatAd, carAd], "2", 3⟩ : PaginatedResponse).NextPage = toString a.ID) := by
  have h := page_size_default_and_trim pageFilter demoStore ⟨[boatAd, carAd], "2", 3⟩
    none (by decide) (by rfl) (by rfl)
  have hne : (⟨[boatAd, carAd], "2", 3⟩ : PaginatedResponse).NextPage ≠ "" := by decide
  exact ⟨hne, h.2.2.2 hne⟩


end OneWay
